import Mathlib

/-!
Verification of the ERUPT / policy-value estimator described in `spec.md`
of the `causaltune_hyperopt_optuna` repository.

The repository's own sources are two Jupyter notebooks.  The estimator
`erupt_with_std` is imported there from the external `causaltune` package
(`from causaltune.score.erupt_core import erupt_with_std`) and only called;
its implementation is not part of the repository sources.  Following the
spec (§4.1 algorithm, §7 error taxonomy) we model the estimator here.
The notebook-side code that *is* in the sources — the confidence-interval
arithmetic `est - 2*std, est + 2*std` and the `p_of_actual` propensity
column of the biased experiment — is embedded directly from the notebook.

Real-valued data (floats in the notebook) is embedded as exact rationals
`ℚ`; the only irrational operation of the algorithm, the final square
root of the variance of the mean, is kept outside the computable core:
`erupt_with_std` returns the *square* of the standard error, and theorems
about the standard error itself speak about `Real.sqrt` of that value.
-/

/-- Error taxonomy of the policy-value estimator, modelled from the spec
(§7): shape/alignment error, domain error, impossible-state error,
zero-support error. -/
inductive EruptError where
  | shapeError
  | domainError
  | impossibleStateError
  | zeroSupportError
deriving DecidableEq, Repr

/-- Input sample of the estimator (spec §3): four aligned per-unit
sequences.  Treatment codes are integers (the notebook uses values
`0`/`1`; the spec allows `{0, …, K−1}`), outcomes and propensities are
reals, embedded as `ℚ`. -/
structure EruptInput where
  actual_propensity : List ℚ
  actual_treatment : List ℕ
  actual_outcome : List ℚ
  hypothetical_policy : List ℕ
deriving DecidableEq, Repr

/-- Match indicator of spec §4.1 step 1: `1` if the logged action equals
the hypothetical policy's action, else `0`. -/
def matchInd (t h : ℕ) : ℚ :=
  if t = h then 1 else 0

/-- Per-unit importance-weighted outcome terms `z_i = match_i / p_i * y_i`
(spec §4.1 steps 2–3), computed elementwise over the aligned lists. -/
def zTerms : List ℕ → List ℕ → List ℚ → List ℚ → List ℚ
  | t :: ts, h :: hs, p :: ps, y :: ys =>
      (matchInd t h / p * y) :: zTerms ts hs ps ys
  | _, _, _, _ => []

/-- Per-unit importance weights `w_i = match_i / p_i` (spec §4.1 step 2). -/
def wTerms : List ℕ → List ℕ → List ℚ → List ℚ
  | t :: ts, h :: hs, p :: ps =>
      (matchInd t h / p) :: wTerms ts hs ps
  | _, _, _ => []

/-- Does some unit report a matched treatment together with a zero logged
propensity (the impossible state of spec §7)? -/
def hasImpossible : List ℕ → List ℕ → List ℚ → Bool
  | t :: ts, h :: hs, p :: ps =>
      (t == h && p == 0) || hasImpossible ts hs ps
  | _, _, _ => false

/-- Does some unit's logged treatment coincide with the hypothetical
policy's action (support of the importance-sampling estimate, spec §7)? -/
def hasMatch : List ℕ → List ℕ → Bool
  | t :: ts, h :: hs => (t == h) || hasMatch ts hs
  | _, _ => false

/-- Do the four input sequences all have the same length (spec §3
invariant, §7 shape/alignment error)? -/
def shapeOk (inp : EruptInput) : Bool :=
  (inp.actual_treatment.length == inp.actual_propensity.length) &&
  (inp.actual_outcome.length == inp.actual_propensity.length) &&
  (inp.hypothetical_policy.length == inp.actual_propensity.length)

/-- Are all propensities inside `[0, 1]` (spec §7 domain error)?  The
value `0` is let through here so that a *matched* zero propensity
surfaces as the dedicated impossible-state error (spec §7, §8
"zero-propensity rejection"), while an unmatched unit with zero
propensity contributes weight `0` per spec §4.1 step 2 ("units with
`match_i = 0` contribute weight 0 regardless of propensity"). -/
def domainOk (inp : EruptInput) : Bool :=
  inp.actual_propensity.all fun p => decide (0 ≤ p) && decide (p ≤ 1)

/-- Arithmetic mean of a list (division by the length; `0` for the empty
list, but the estimator never takes the mean of an empty list). -/
def sampleMean (zs : List ℚ) : ℚ :=
  zs.sum / (zs.length : ℚ)

/-- Sample variance (Bessel-corrected, divisor `n − 1`) of a list: the
square of the spec's "sample standard deviation" (§4.1 step 5). -/
def sampleVar (zs : List ℚ) : ℚ :=
  (zs.map fun z => (z - sampleMean zs) ^ 2).sum / ((zs.length : ℚ) - 1)

/-- Modelled from the spec: the estimator
`causaltune.score.erupt_core.erupt_with_std` is imported by the notebooks
from the external `causaltune` package and its implementation is missing
from this repository's sources, so it is modelled from spec §4.1
(algorithm steps 1–5) and §7 (error taxonomy, fail-fast validation in
the order shape, domain, impossible state, zero support).  The result's
first component is the point estimate `(1/n) * Σ z_i` over all `n` units;
the second component is the *square* of the standard error, namely
`sampleVar z / n` — the standard error itself is its real square root,
which is kept outside the computable core.  Degenerate input (`n = 0` or
no matched unit) yields the zero-support error (spec §4.1, §7, §8). -/
def erupt_with_std (inp : EruptInput) : Except EruptError (ℚ × ℚ) :=
  if shapeOk inp then
    if domainOk inp then
      if hasImpossible inp.actual_treatment inp.hypothetical_policy
          inp.actual_propensity then
        .error .impossibleStateError
      else if hasMatch inp.actual_treatment inp.hypothetical_policy then
        .ok (sampleMean (zTerms inp.actual_treatment inp.hypothetical_policy
              inp.actual_propensity inp.actual_outcome),
            sampleVar (zTerms inp.actual_treatment inp.hypothetical_policy
              inp.actual_propensity inp.actual_outcome) /
            ((zTerms inp.actual_treatment inp.hypothetical_policy
              inp.actual_propensity inp.actual_outcome).length : ℚ))
      else
        .error .zeroSupportError
    else
      .error .domainError
  else
    .error .shapeError

/-- Confidence-interval endpoints computed by the calling notebook
(`est-2*std, est + 2*std`, src/unnamed/part_000 lines 341 and 382). -/
def ci_endpoints (est std : ℚ) : ℚ × ℚ :=
  (est - 2 * std, est + 2 * std)

/-- Treatment probability of the biased logging policy in the notebook
(`df["p"] = 0.5+0.5*df["X"]`, src/unnamed/part_000 line 290). -/
def p_of_x (x : ℚ) : ℚ :=
  1/2 + 1/2 * x

/-- Propensity of the realized action in the notebook
(`df["p_of_actual"] = df["p"]*df["T2"] + (1-df["p"])*(1-df["T2"])`,
src/unnamed/part_000 line 295); `t2` is the binary realized treatment. -/
def p_of_actual (pr : ℚ) (t2 : ℕ) : ℚ :=
  pr * (t2 : ℚ) + (1 - pr) * (1 - (t2 : ℚ))

/-- Input transformation of the spec's §8 "scale sanity" property: every
observed outcome multiplied by the constant `c`, all other data fixed. -/
def scaleOutcome (inp : EruptInput) (c : ℚ) : EruptInput :=
  { inp with actual_outcome := inp.actual_outcome.map fun y => c * y }

/-- Input transformation of the spec's §8 "scale sanity" property: the
constant `d` added to every observed outcome, all other data fixed. -/
def shiftOutcome (inp : EruptInput) (d : ℚ) : EruptInput :=
  { inp with actual_outcome := inp.actual_outcome.map fun y => y + d }

/-! ### Helper lemmas about the validation checks -/

lemma shapeOk_iff (inp : EruptInput) :
    shapeOk inp = true ↔
      inp.actual_treatment.length = inp.actual_propensity.length ∧
      inp.actual_outcome.length = inp.actual_propensity.length ∧
      inp.hypothetical_policy.length = inp.actual_propensity.length := by
  simp [shapeOk, Bool.and_eq_true, beq_iff_eq, and_assoc]

lemma domainOk_iff (inp : EruptInput) :
    domainOk inp = true ↔ ∀ q ∈ inp.actual_propensity, 0 ≤ q ∧ q ≤ 1 := by
  simp [domainOk, List.all_eq_true]

lemma erupt_ok_iff (inp : EruptInput) (e v : ℚ) :
    erupt_with_std inp = .ok (e, v) ↔
      shapeOk inp = true ∧ domainOk inp = true ∧
      hasImpossible inp.actual_treatment inp.hypothetical_policy
        inp.actual_propensity = false ∧
      hasMatch inp.actual_treatment inp.hypothetical_policy = true ∧
      sampleMean (zTerms inp.actual_treatment inp.hypothetical_policy
        inp.actual_propensity inp.actual_outcome) = e ∧
      sampleVar (zTerms inp.actual_treatment inp.hypothetical_policy
        inp.actual_propensity inp.actual_outcome) /
        ((zTerms inp.actual_treatment inp.hypothetical_policy
          inp.actual_propensity inp.actual_outcome).length : ℚ) = v := by
  unfold erupt_with_std
  cases h1 : shapeOk inp <;>
    cases h2 : domainOk inp <;>
    cases h3 : hasImpossible inp.actual_treatment inp.hypothetical_policy
      inp.actual_propensity <;>
    cases h4 : hasMatch inp.actual_treatment inp.hypothetical_policy <;>
    simp

lemma hasImpossible_eq_false_of_no_match :
    ∀ (t h : List ℕ) (p : List ℚ), hasMatch t h = false →
      hasImpossible t h p = false := by
  intro t
  induction t with
  | nil => intro h p _; cases h <;> cases p <;> rfl
  | cons t0 ts ih =>
    intro h p hm
    cases h with
    | nil => cases p <;> rfl
    | cons h0 hs =>
      cases p with
      | nil => rfl
      | cons p0 ps =>
        simp only [hasMatch, Bool.or_eq_false_iff, beq_eq_false_iff_ne,
          ne_eq] at hm
        simp [hasImpossible, hm.1, ih hs ps hm.2]

lemma hasImpossible_eq_false_of_pos :
    ∀ (t h : List ℕ) (p : List ℚ), (∀ q ∈ p, q ≠ 0) →
      hasImpossible t h p = false := by
  intro t
  induction t with
  | nil => intro h p _; cases h <;> cases p <;> rfl
  | cons t0 ts ih =>
    intro h p hp
    cases h with
    | nil => cases p <;> rfl
    | cons h0 hs =>
      cases p with
      | nil => rfl
      | cons p0 ps =>
        have h0ne : p0 ≠ 0 := hp p0 (List.mem_cons_self p0 ps)
        simp [hasImpossible, h0ne, ih hs ps fun q hq => hp q (List.mem_cons_of_mem _ hq)]

lemma hasMatch_self : ∀ t : List ℕ, t ≠ [] → hasMatch t t = true := by
  intro t ht
  cases t with
  | nil => exact absurd rfl ht
  | cons t0 ts => simp [hasMatch]

/-! ### Helper lemmas about the per-unit terms -/

lemma zTerms_length :
    ∀ (t h : List ℕ) (p y : List ℚ), t.length = p.length →
      h.length = p.length → y.length = p.length →
      (zTerms t h p y).length = p.length := by
  intro t
  induction t with
  | nil =>
    intro h p y ht hh hy
    have hp : p = [] := by cases p with | nil => rfl | cons a l => simp at ht
    subst hp
    have hh' : h = [] := List.length_eq_zero.mp (by simpa using hh)
    have hy' : y = [] := List.length_eq_zero.mp (by simpa using hy)
    subst hh'; subst hy'
    rfl
  | cons t0 ts ih =>
    intro h p y ht hh hy
    cases p with
    | nil => simp at ht
    | cons p0 ps =>
      cases h with
      | nil => simp at hh
      | cons h0 hs =>
        cases y with
        | nil => simp at hy
        | cons y0 ys =>
          simp only [List.length_cons, add_left_inj] at ht hh hy
          simp [zTerms, ih hs ps ys ht hh hy]

lemma zTerms_sum :
    ∀ (t h : List ℕ) (p y : List ℚ), t.length = p.length →
      h.length = p.length → y.length = p.length →
      (zTerms t h p y).sum = ∑ i ∈ Finset.range p.length,
        (if t.getD i 0 = h.getD i 0 then (1 : ℚ) else 0) /
          p.getD i 0 * y.getD i 0 := by
  intro t
  induction t with
  | nil =>
    intro h p y ht hh hy
    have hp : p = [] := by cases p with | nil => rfl | cons a l => simp at ht
    subst hp
    have hh' : h = [] := List.length_eq_zero.mp (by simpa using hh)
    have hy' : y = [] := List.length_eq_zero.mp (by simpa using hy)
    subst hh'; subst hy'
    simp [zTerms]
  | cons t0 ts ih =>
    intro h p y ht hh hy
    cases p with
    | nil => simp at ht
    | cons p0 ps =>
      cases h with
      | nil => simp at hh
      | cons h0 hs =>
        cases y with
        | nil => simp at hy
        | cons y0 ys =>
          simp only [List.length_cons, add_left_inj] at ht hh hy
          rw [List.length_cons, Finset.sum_range_succ']
          simp only [List.getD_cons_succ, List.getD_cons_zero]
          rw [← ih hs ps ys ht hh hy]
          simp [zTerms, matchInd]
          ring

lemma wTerms_length :
    ∀ (t h : List ℕ) (p : List ℚ), t.length = p.length →
      h.length = p.length → (wTerms t h p).length = p.length := by
  intro t
  induction t with
  | nil =>
    intro h p ht hh
    have hp : p = [] := by cases p with | nil => rfl | cons a l => simp at ht
    subst hp
    have hh' : h = [] := List.length_eq_zero.mp (by simpa using hh)
    subst hh'
    rfl
  | cons t0 ts ih =>
    intro h p ht hh
    cases p with
    | nil => simp at ht
    | cons p0 ps =>
      cases h with
      | nil => simp at hh
      | cons h0 hs =>
        simp only [List.length_cons, add_left_inj] at ht hh
        simp [wTerms, ih hs ps ht hh]

lemma zTerms_map_mul (c : ℚ) :
    ∀ (t h : List ℕ) (p y : List ℚ),
      zTerms t h p (y.map fun x => c * x) =
        (zTerms t h p y).map fun x => c * x := by
  intro t
  induction t with
  | nil => intro h p y; cases h <;> cases p <;> cases y <;> rfl
  | cons t0 ts ih =>
    intro h p y
    cases h with
    | nil => cases p <;> cases y <;> rfl
    | cons h0 hs =>
      cases p with
      | nil => cases y <;> rfl
      | cons p0 ps =>
        cases y with
        | nil => rfl
        | cons y0 ys =>
          simp only [List.map_cons, zTerms]
          refine congrArg₂ List.cons ?_ (ih hs ps ys)
          ring

lemma zTerms_map_add (d : ℚ) :
    ∀ (t h : List ℕ) (p y : List ℚ),
      zTerms t h p (y.map fun x => x + d) =
        List.zipWith (fun z w => z + d * w) (zTerms t h p y) (wTerms t h p) := by
  intro t
  induction t with
  | nil => intro h p y; cases h <;> cases p <;> cases y <;> rfl
  | cons t0 ts ih =>
    intro h p y
    cases h with
    | nil => cases p <;> cases y <;> rfl
    | cons h0 hs =>
      cases p with
      | nil => cases y <;> rfl
      | cons p0 ps =>
        cases y with
        | nil => rfl
        | cons y0 ys =>
          simp only [List.map_cons, zTerms, wTerms, List.zipWith_cons_cons]
          refine congrArg₂ List.cons ?_ (ih hs ps ys)
          ring

lemma zTerms_self_uniform (c : ℚ) :
    ∀ (t : List ℕ) (p y : List ℚ), p.length = t.length →
      y.length = t.length → (∀ q ∈ p, q = c) →
      zTerms t t p y = y.map fun x => 1 / c * x := by
  intro t
  induction t with
  | nil =>
    intro p y hp hy _
    have hp' : p = [] := List.length_eq_zero.mp (by simpa using hp)
    have hy' : y = [] := List.length_eq_zero.mp (by simpa using hy)
    subst hp'; subst hy'
    rfl
  | cons t0 ts ih =>
    intro p y hp hy hq
    cases p with
    | nil => simp at hp
    | cons p0 ps =>
      cases y with
      | nil => simp at hy
      | cons y0 ys =>
        have hp0 : p0 = c := hq p0 (List.mem_cons_self p0 ps)
        subst hp0
        simp only [List.map_cons, zTerms, matchInd, if_pos rfl]
        refine congrArg₂ List.cons (by simp) ?_
        exact ih ps ys (by simpa using hp) (by simpa using hy)
          fun q hq' => hq q (List.mem_cons_of_mem _ hq')

lemma sum_zipWith_add_mul (d : ℚ) :
    ∀ (as bs : List ℚ), as.length = bs.length →
      (List.zipWith (fun a b => a + d * b) as bs).sum = as.sum + d * bs.sum := by
  intro as
  induction as with
  | nil =>
    intro bs h
    have hb : bs = [] := List.length_eq_zero.mp (by simpa using h.symm)
    subst hb
    simp
  | cons a as ih =>
    intro bs h
    cases bs with
    | nil => simp at h
    | cons b bs =>
      simp only [List.zipWith_cons_cons, List.sum_cons,
        ih bs (by simpa using h)]
      ring

lemma list_sum_map_mul (c : ℚ) (l : List ℚ) :
    (l.map fun x => c * x).sum = c * l.sum := by
  induction l with
  | nil => simp
  | cons a l ih =>
    simp only [List.map_cons, List.sum_cons, ih]
    ring

lemma sampleMean_map_mul (c : ℚ) (l : List ℚ) :
    sampleMean (l.map fun x => c * x) = c * sampleMean l := by
  simp [sampleMean, list_sum_map_mul, mul_div_assoc]

lemma sampleVar_map_mul (c : ℚ) (l : List ℚ) :
    sampleVar (l.map fun x => c * x) = c ^ 2 * sampleVar l := by
  unfold sampleVar
  rw [List.map_map, sampleMean_map_mul, List.length_map]
  have hfun : ((fun z => (z - c * sampleMean l) ^ 2) ∘ fun x => c * x) =
      fun x => c ^ 2 * (x - sampleMean l) ^ 2 := by
    funext x
    simp only [Function.comp_apply]
    ring
  rw [hfun,
    show (fun x : ℚ => c ^ 2 * (x - sampleMean l) ^ 2) =
      ((fun s => c ^ 2 * s) ∘ fun x => (x - sampleMean l) ^ 2) from rfl,
    ← List.map_map, list_sum_map_mul, mul_div_assoc]

lemma sampleVar_nonneg (l : List ℚ) : 0 ≤ sampleVar l := by
  cases l with
  | nil => simp [sampleVar]
  | cons a l =>
    apply div_nonneg
    · apply List.sum_nonneg
      intro x hx
      obtain ⟨z, _, rfl⟩ := List.mem_map.mp hx
      positivity
    · have hlen : (((a :: l).length : ℚ)) - 1 = (l.length : ℚ) := by
        push_cast [List.length_cons]
        ring
      rw [hlen]
      positivity

lemma hasImpossible_of_exists :
    ∀ (t h : List ℕ) (p : List ℚ) (i : ℕ), i < t.length → i < h.length →
      i < p.length → t.getD i 0 = h.getD i 0 → p.getD i 0 = 0 →
      hasImpossible t h p = true := by
  intro t
  induction t with
  | nil => intro h p i hit _ _ _ _; simp at hit
  | cons t0 ts ih =>
    intro h p i hit hih hip hm hp
    cases h with
    | nil => simp at hih
    | cons h0 hs =>
      cases p with
      | nil => simp at hip
      | cons p0 ps =>
        cases i with
        | zero =>
          simp only [List.getD_cons_zero] at hm hp
          simp [hasImpossible, hm, hp]
        | succ i =>
          simp only [List.getD_cons_succ] at hm hp
          simp only [List.length_cons] at hit hih hip
          simp [hasImpossible,
            ih hs ps i (by omega) (by omega) (by omega) hm hp]

lemma hasMatch_eq_false_of_ne :
    ∀ (t h : List ℕ), t.length = h.length →
      (∀ i < t.length, t.getD i 0 ≠ h.getD i 0) → hasMatch t h = false := by
  intro t
  induction t with
  | nil =>
    intro h hl _
    have hh : h = [] := List.length_eq_zero.mp (by simpa using hl.symm)
    subst hh
    rfl
  | cons t0 ts ih =>
    intro h hl hne
    cases h with
    | nil => simp at hl
    | cons h0 hs =>
      have h0ne : t0 ≠ h0 := by simpa using hne 0 (by simp)
      have htail : ∀ i < ts.length, ts.getD i 0 ≠ hs.getD i 0 := by
        intro i hi
        have := hne (i + 1) (by simp only [List.length_cons]; omega)
        simpa using this
      simp [hasMatch, h0ne, ih hs (by simpa using hl) htail]

/-! ### Claim theorems -/

/-- C8: whenever the four input sequences do not all have the same length,
the estimator fails fast with the shape/alignment validation error; no
estimate (partial or default) is computed. -/
theorem erupt_shape_mismatch_fails (inp : EruptInput)
    (h : ¬ (inp.actual_treatment.length = inp.actual_propensity.length ∧
      inp.actual_outcome.length = inp.actual_propensity.length ∧
      inp.hypothetical_policy.length = inp.actual_propensity.length)) :
    erupt_with_std inp = .error .shapeError := by
  have hs : shapeOk inp = false := by
    rcases hb : shapeOk inp with _ | _
    · rfl
    · exact absurd ((shapeOk_iff inp).mp hb) h
  unfold erupt_with_std
  simp [hs]

/-- Witness for C8 at a concrete mismatched input. -/
theorem erupt_shape_mismatch_fails_witness :
    ¬ ((([0] : List ℕ).length = ([1/2] : List ℚ).length ∧
      ([1] : List ℚ).length = ([1/2] : List ℚ).length ∧
      ([0, 0] : List ℕ).length = ([1/2] : List ℚ).length)) ∧
    erupt_with_std ⟨[1/2], [0], [1], [0, 0]⟩ = .error .shapeError :=
  ⟨by decide, erupt_shape_mismatch_fails ⟨[1/2], [0], [1], [0, 0]⟩ (by decide)⟩

/-- C9: the notebook's reported approximate 95% confidence interval has
endpoints exactly `point_estimate - 2*standard_error` and
`point_estimate + 2*standard_error`. -/
theorem ci_endpoints_eq (est std : ℚ) :
    (ci_endpoints est std).1 = est - 2 * std ∧
    (ci_endpoints est std).2 = est + 2 * std :=
  ⟨rfl, rfl⟩

/-- C10: in the notebook's biased experiment with `p = 0.5 + 0.5*X`,
`X ∈ [0,1)` and binary realized treatment `t2 ∈ {0,1}`, the column
`p_of_actual = p*T2 + (1-p)*(1-T2)` equals `p` when `t2 = 1` and `1-p`
when `t2 = 0` (the logging policy's probability of its own realized
action), and lies strictly inside `(0, 1)` — in particular inside the
`(0, 1]` domain required by the estimator. -/
theorem p_of_actual_props (x : ℚ) (t2 : ℕ) (hx0 : 0 ≤ x) (hx1 : x < 1)
    (ht2 : t2 = 0 ∨ t2 = 1) :
    p_of_actual (p_of_x x) t2 =
      (if t2 = 1 then p_of_x x else 1 - p_of_x x) ∧
    0 < p_of_actual (p_of_x x) t2 ∧ p_of_actual (p_of_x x) t2 < 1 ∧
    p_of_actual (p_of_x x) t2 ≤ 1 := by
  have h1 : p_of_x x = 1/2 + 1/2 * x := rfl
  rcases ht2 with rfl | rfl
  · have hval : p_of_actual (p_of_x x) 0 = 1 - p_of_x x := by
      simp [p_of_actual]
    have hif : (if (0 : ℕ) = 1 then p_of_x x else 1 - p_of_x x) =
        1 - p_of_x x := by norm_num
    rw [hval, hif]
    refine ⟨rfl, ?_, ?_, ?_⟩ <;> rw [h1] <;> linarith
  · have hval : p_of_actual (p_of_x x) 1 = p_of_x x := by
      simp [p_of_actual]
    have hif : (if (1 : ℕ) = 1 then p_of_x x else 1 - p_of_x x) =
        p_of_x x := by norm_num
    rw [hval, hif]
    refine ⟨rfl, ?_, ?_, ?_⟩ <;> rw [h1] <;> linarith

/-- Witness for C10 at `x = 1/2`, `t2 = 1`. -/
theorem p_of_actual_props_witness :
    (0 ≤ (1/2 : ℚ) ∧ (1/2 : ℚ) < 1 ∧ ((1 : ℕ) = 0 ∨ (1 : ℕ) = 1)) ∧
    (p_of_actual (p_of_x (1/2)) 1 =
      (if (1 : ℕ) = 1 then p_of_x (1/2) else 1 - p_of_x (1/2)) ∧
    0 < p_of_actual (p_of_x (1/2)) 1 ∧ p_of_actual (p_of_x (1/2)) 1 < 1 ∧
    p_of_actual (p_of_x (1/2)) 1 ≤ 1) :=
  ⟨⟨by norm_num, by norm_num, Or.inr rfl⟩,
    p_of_actual_props (1/2) 1 (by norm_num) (by norm_num) (Or.inr rfl)⟩

/-- C3: an input (aligned, with in-range propensities) containing some unit
`i` whose actual treatment equals the hypothetical policy's assignment
while `actual_propensity[i] = 0` makes the estimator raise the
impossible-state validation error; no `.ok` result (in particular no
infinite or undefined weight) is ever returned for it. -/
theorem erupt_impossible_state (inp : EruptInput) (i : ℕ)
    (hshape : shapeOk inp = true) (hdom : domainOk inp = true)
    (hi : i < inp.actual_propensity.length)
    (hmatch : inp.actual_treatment.getD i 0 =
      inp.hypothetical_policy.getD i 0)
    (hzero : inp.actual_propensity.getD i 0 = 0) :
    erupt_with_std inp = .error .impossibleStateError := by
  obtain ⟨ht, hy, hh⟩ := (shapeOk_iff inp).mp hshape
  have himp := hasImpossible_of_exists inp.actual_treatment
    inp.hypothetical_policy inp.actual_propensity i
    (by omega) (by omega) hi hmatch hzero
  unfold erupt_with_std
  simp [hshape, hdom, himp]

/-- Witness for C3 at the concrete input with one matched unit of zero
propensity. -/
theorem erupt_impossible_state_witness :
    (shapeOk ⟨[0], [0], [1], [0]⟩ = true ∧
      domainOk ⟨[0], [0], [1], [0]⟩ = true ∧
      0 < ([0] : List ℚ).length ∧
      ([0] : List ℕ).getD 0 0 = ([0] : List ℕ).getD 0 0 ∧
      ([0] : List ℚ).getD 0 0 = 0) ∧
    erupt_with_std ⟨[0], [0], [1], [0]⟩ = .error .impossibleStateError :=
  ⟨⟨by decide, by decide, by decide, by decide, by decide⟩,
    erupt_impossible_state ⟨[0], [0], [1], [0]⟩ 0 (by decide) (by decide)
      (by decide) (by decide) (by decide)⟩

/-- C4: degenerate input — the empty sample (`n = 0`), or any aligned,
domain-valid sample in which no unit's actual treatment equals the
hypothetical policy's assignment — makes the estimator raise the
zero-support validation error (a distinct error value, not a `0` or
undefined estimate with a standard error). -/
theorem erupt_zero_support :
    erupt_with_std ⟨[], [], [], []⟩ = .error .zeroSupportError ∧
    ∀ inp : EruptInput, shapeOk inp = true → domainOk inp = true →
      (∀ i < inp.actual_treatment.length,
        inp.actual_treatment.getD i 0 ≠ inp.hypothetical_policy.getD i 0) →
      erupt_with_std inp = .error .zeroSupportError := by
  constructor
  · rfl
  · intro inp hshape hdom hne
    obtain ⟨ht, hy, hh⟩ := (shapeOk_iff inp).mp hshape
    have hm : hasMatch inp.actual_treatment inp.hypothetical_policy =
        false :=
      hasMatch_eq_false_of_ne _ _ (by omega) hne
    have himp := hasImpossible_eq_false_of_no_match
      inp.actual_treatment inp.hypothetical_policy inp.actual_propensity hm
    unfold erupt_with_std
    simp [hshape, hdom, himp, hm]

/-- Witness for C4 at a concrete all-mismatched input. -/
theorem erupt_zero_support_witness :
    (shapeOk ⟨[1], [0], [2], [1]⟩ = true ∧
      domainOk ⟨[1], [0], [2], [1]⟩ = true ∧
      (∀ i < ([0] : List ℕ).length,
        ([0] : List ℕ).getD i 0 ≠ ([1] : List ℕ).getD i 0)) ∧
    erupt_with_std ⟨[1], [0], [2], [1]⟩ = .error .zeroSupportError :=
  ⟨⟨by decide, by decide, by decide⟩,
    erupt_zero_support.2 ⟨[1], [0], [2], [1]⟩ (by decide) (by decide)
      (by decide)⟩

/-- C1: whenever the estimator returns a result, the point estimate is the
arithmetic mean over all `n` units of
`z_i = (match_i / actual_propensity[i]) * actual_outcome[i]`, where
`match_i` is `1` if `actual_treatment[i] == hypothetical_policy[i]` and
`0` otherwise. -/
theorem erupt_estimate_eq_mean (inp : EruptInput) (e v : ℚ)
    (hok : erupt_with_std inp = .ok (e, v)) :
    e = (1 / (inp.actual_propensity.length : ℚ)) *
      ∑ i ∈ Finset.range inp.actual_propensity.length,
        (if inp.actual_treatment.getD i 0 = inp.hypothetical_policy.getD i 0
          then (1 : ℚ) else 0) /
          inp.actual_propensity.getD i 0 * inp.actual_outcome.getD i 0 := by
  obtain ⟨hs, hd, hi, hm, he, hv⟩ := (erupt_ok_iff inp e v).mp hok
  obtain ⟨ht, hy, hh⟩ := (shapeOk_iff inp).mp hs
  subst he
  rw [sampleMean, zTerms_length _ _ _ _ ht hh hy,
    zTerms_sum _ _ _ _ ht hh hy, one_div_mul_eq_div]

/-- Witness for C1 at a one-unit matched input. -/
theorem erupt_estimate_eq_mean_witness :
    erupt_with_std ⟨[1], [0], [3], [0]⟩ = .ok (3, 0) ∧
    (3 : ℚ) = (1 / (([1] : List ℚ).length : ℚ)) *
      ∑ i ∈ Finset.range ([1] : List ℚ).length,
        (if ([0] : List ℕ).getD i 0 = ([0] : List ℕ).getD i 0
          then (1 : ℚ) else 0) /
          ([1] : List ℚ).getD i 0 * ([3] : List ℚ).getD i 0 :=
  ⟨by norm_num [erupt_with_std, shapeOk, domainOk, hasImpossible, hasMatch,
      zTerms, sampleMean, sampleVar, matchInd],
    erupt_estimate_eq_mean ⟨[1], [0], [3], [0]⟩ 3 0
      (by norm_num [erupt_with_std, shapeOk, domainOk, hasImpossible,
        hasMatch, zTerms, sampleMean, sampleVar, matchInd])⟩

/-- C2: whenever the estimator returns a result, the standard error (the
real square root of the returned squared-standard-error component) equals
the sample standard deviation of the per-unit terms `z_i` across all `n`
units divided by `sqrt n`. -/
theorem erupt_std_eq (inp : EruptInput) (e v : ℚ)
    (hok : erupt_with_std inp = .ok (e, v)) :
    Real.sqrt (v : ℝ) =
      Real.sqrt ((sampleVar (zTerms inp.actual_treatment
        inp.hypothetical_policy inp.actual_propensity
        inp.actual_outcome) : ℝ)) /
      Real.sqrt ((inp.actual_propensity.length : ℝ)) := by
  obtain ⟨hs, hd, hi, hm, he, hv⟩ := (erupt_ok_iff inp e v).mp hok
  obtain ⟨ht, hy, hh⟩ := (shapeOk_iff inp).mp hs
  rw [← hv, zTerms_length _ _ _ _ ht hh hy]
  push_cast
  exact Real.sqrt_div (by exact_mod_cast sampleVar_nonneg _) _

/-- Witness for C2 at a two-unit matched input. -/
theorem erupt_std_eq_witness :
    erupt_with_std ⟨[1, 1], [0, 0], [1, 3], [0, 0]⟩ = .ok (2, 1) ∧
    Real.sqrt ((1 : ℚ) : ℝ) =
      Real.sqrt ((sampleVar (zTerms [0, 0] [0, 0] [1, 1] [1, 3]) : ℝ)) /
      Real.sqrt ((([1, 1] : List ℚ).length : ℝ)) :=
  ⟨by norm_num [erupt_with_std, shapeOk, domainOk, hasImpossible, hasMatch,
      zTerms, sampleMean, sampleVar, matchInd],
    erupt_std_eq ⟨[1, 1], [0, 0], [1, 3], [0, 0]⟩ 2 1
      (by norm_num [erupt_with_std, shapeOk, domainOk, hasImpossible,
        hasMatch, zTerms, sampleMean, sampleVar, matchInd])⟩

/-- C7: the concrete scenario of the spec — `n = 4`,
`actual_treatment = [1,0,1,0]`, `actual_propensity = [0.9,0.9,0.1,0.1]`,
`actual_outcome = [2.0,1.0,4.0,0.5]`, `hypothetical_policy = [1,1,1,1]` —
yields point estimate `(2.0/0.9 + 4.0/0.1)/4 = 95/9 = 10.555…` and the
standard error of the terms `z = [2.222…, 0, 40, 0]` computed as their
sample standard deviation divided by `sqrt 4`. -/
theorem erupt_concrete_scenario :
    erupt_with_std ⟨[9/10, 9/10, 1/10, 1/10], [1, 0, 1, 0], [2, 1, 4, 1/2],
      [1, 1, 1, 1]⟩ = .ok ((2 / (9/10) + 4 / (1/10)) / 4, 7825/81) ∧
    ((2 / (9/10) + 4 / (1/10) : ℚ) / 4 = 95 / 9) ∧
    Real.sqrt ((7825/81 : ℚ) : ℝ) =
      Real.sqrt ((sampleVar [2 / (9/10), 0, 4 / (1/10), 0] : ℝ)) /
        Real.sqrt (4 : ℝ) := by
  refine ⟨?_, by norm_num, ?_⟩
  · norm_num [erupt_with_std, shapeOk, domainOk, hasImpossible, hasMatch,
      zTerms, sampleMean, sampleVar, matchInd]
  · have h1 : (sampleVar [2 / (9/10), 0, 4 / (1/10), 0] : ℚ) = 31300/81 := by
      norm_num [sampleVar, sampleMean]
    have h2 : ((7825/81 : ℚ) : ℝ) = ((31300/81 : ℚ) : ℝ) / 4 := by
      push_cast
      norm_num
    rw [h1, h2, Real.sqrt_div (by positivity) 4]

/-- C5 counterexample: with `hypothetical_policy == actual_treatment` for
every unit and the uniform binary propensity `1/2` (`K = 2`), the
estimator's point estimate is `2`, while the plain sample mean of
`actual_outcome` is `1` — the two differ, refuting the claimed
self-consistency. -/
theorem erupt_self_consistency_cex :
    erupt_with_std ⟨[1/2], [0], [1], [0]⟩ = .ok (2, 0) ∧
    sampleMean ([1] : List ℚ) = 1 ∧ (2 : ℚ) ≠ 1 := by
  refine ⟨?_, by norm_num [sampleMean], by norm_num⟩
  norm_num [erupt_with_std, shapeOk, domainOk, hasImpossible, hasMatch,
    zTerms, sampleMean, sampleVar, matchInd]

/-- C5 (amended): if `hypothetical_policy == actual_treatment` for every
unit, the propensities are uniformly `1/K` with `K ≥ 1`, and the aligned
sample is nonempty, the estimator's point estimate equals `K` times the
plain sample mean of `actual_outcome` (for binary `K = 2`, twice the
sample mean; it equals the plain sample mean only in degenerate cases). -/
theorem erupt_self_policy_uniform (inp : EruptInput) (K : ℕ)
    (hshape : shapeOk inp = true) (hK : 1 ≤ K)
    (hth : inp.actual_treatment = inp.hypothetical_policy)
    (hp : ∀ q ∈ inp.actual_propensity, q = 1 / (K : ℚ))
    (hn : 1 ≤ inp.actual_propensity.length) :
    ∃ v, erupt_with_std inp =
      .ok ((K : ℚ) * sampleMean inp.actual_outcome, v) := by
  obtain ⟨ht, hy, hh⟩ := (shapeOk_iff inp).mp hshape
  have hKQ : (1 : ℚ) ≤ (K : ℚ) := by exact_mod_cast hK
  have hKpos : (0 : ℚ) < (K : ℚ) := by linarith
  have hdom : domainOk inp = true := by
    rw [domainOk_iff]
    intro q hq
    rw [hp q hq]
    exact ⟨by positivity, by rw [div_le_one hKpos]; exact hKQ⟩
  have hne : ∀ q ∈ inp.actual_propensity, q ≠ 0 := by
    intro q hq
    rw [hp q hq]
    exact ne_of_gt (by positivity)
  have himp := hasImpossible_eq_false_of_pos inp.actual_treatment
    inp.hypothetical_policy inp.actual_propensity hne
  have htne : inp.actual_treatment ≠ [] := by
    intro hnil
    rw [hnil] at ht
    simp only [List.length_nil] at ht
    omega
  have hmatch : hasMatch inp.actual_treatment inp.hypothetical_policy =
      true := by
    rw [← hth]
    exact hasMatch_self _ htne
  refine ⟨sampleVar (zTerms inp.actual_treatment inp.hypothetical_policy
    inp.actual_propensity inp.actual_outcome) /
    ((zTerms inp.actual_treatment inp.hypothetical_policy
      inp.actual_propensity inp.actual_outcome).length : ℚ), ?_⟩
  rw [erupt_ok_iff]
  refine ⟨hshape, hdom, himp, hmatch, ?_, rfl⟩
  rw [← hth,
    zTerms_self_uniform (1 / (K : ℚ)) _ _ _ (ht.symm) (hy.trans ht.symm) hp,
    sampleMean_map_mul, one_div_one_div]

/-- Witness for the amended C5 at `K = 2` with two matched units. -/
theorem erupt_self_policy_uniform_witness :
    (shapeOk ⟨[1/2, 1/2], [0, 1], [2, 4], [0, 1]⟩ = true ∧ 1 ≤ 2 ∧
      ([0, 1] : List ℕ) = [0, 1] ∧
      (∀ q ∈ ([1/2, 1/2] : List ℚ), q = 1 / ((2 : ℕ) : ℚ)) ∧
      1 ≤ ([1/2, 1/2] : List ℚ).length) ∧
    ∃ v, erupt_with_std ⟨[1/2, 1/2], [0, 1], [2, 4], [0, 1]⟩ =
      .ok (((2 : ℕ) : ℚ) * sampleMean ([2, 4] : List ℚ), v) :=
  ⟨⟨by decide, by decide, rfl,
      by
        intro q hq
        simp only [List.mem_cons, List.not_mem_nil, or_false] at hq
        rcases hq with rfl | rfl <;> simp,
      by decide⟩,
    erupt_self_policy_uniform ⟨[1/2, 1/2], [0, 1], [2, 4], [0, 1]⟩ 2
      (by decide) (by decide) rfl
      (by
        intro q hq
        simp only [List.mem_cons, List.not_mem_nil, or_false] at hq
        rcases hq with rfl | rfl <;> simp)
      (by decide)⟩

/-- C6 counterexample: scaling all outcomes by `c = -1` leaves the
standard error at `sqrt 1 = 1`, not `c * 1 = -1`; shifting all outcomes
by `d = 1` moves the estimate of the one-unit input `⟨[1/2],[0],[0],[0]⟩`
from `0` to `2`, not to `0 + 1`; and the same shift moves the squared
standard error of `⟨[1,1/2],[0,0],[0,0],[0,0]⟩` from `0` to `1/4`, so the
standard error does not stay unchanged either. -/
theorem erupt_scale_shift_cex :
    (erupt_with_std ⟨[1, 1], [0, 0], [0, 2], [0, 0]⟩ = .ok (1, 1) ∧
      scaleOutcome ⟨[1, 1], [0, 0], [0, 2], [0, 0]⟩ (-1) =
        ⟨[1, 1], [0, 0], [0, -2], [0, 0]⟩ ∧
      erupt_with_std ⟨[1, 1], [0, 0], [0, -2], [0, 0]⟩ = .ok (-1, 1) ∧
      Real.sqrt ((1 : ℚ) : ℝ) ≠ (-1 : ℝ) * Real.sqrt ((1 : ℚ) : ℝ)) ∧
    (erupt_with_std ⟨[1/2], [0], [0], [0]⟩ = .ok (0, 0) ∧
      shiftOutcome ⟨[1/2], [0], [0], [0]⟩ 1 = ⟨[1/2], [0], [1], [0]⟩ ∧
      erupt_with_std ⟨[1/2], [0], [1], [0]⟩ = .ok (2, 0) ∧
      (2 : ℚ) ≠ 0 + 1) ∧
    (erupt_with_std ⟨[1, 1/2], [0, 0], [0, 0], [0, 0]⟩ = .ok (0, 0) ∧
      shiftOutcome ⟨[1, 1/2], [0, 0], [0, 0], [0, 0]⟩ 1 =
        ⟨[1, 1/2], [0, 0], [1, 1], [0, 0]⟩ ∧
      erupt_with_std ⟨[1, 1/2], [0, 0], [1, 1], [0, 0]⟩ = .ok (3/2, 1/4) ∧
      Real.sqrt ((1/4 : ℚ) : ℝ) ≠ Real.sqrt ((0 : ℚ) : ℝ)) := by
  refine ⟨⟨?_, ?_, ?_, ?_⟩, ⟨?_, ?_, ?_, by norm_num⟩, ⟨?_, ?_, ?_, ?_⟩⟩
  · norm_num [erupt_with_std, shapeOk, domainOk, hasImpossible, hasMatch,
      zTerms, sampleMean, sampleVar, matchInd]
  · norm_num [scaleOutcome]
  · norm_num [erupt_with_std, shapeOk, domainOk, hasImpossible, hasMatch,
      zTerms, sampleMean, sampleVar, matchInd]
  · rw [Rat.cast_one, Real.sqrt_one]
    norm_num
  · norm_num [erupt_with_std, shapeOk, domainOk, hasImpossible, hasMatch,
      zTerms, sampleMean, sampleVar, matchInd]
  · norm_num [shiftOutcome]
  · norm_num [erupt_with_std, shapeOk, domainOk, hasImpossible, hasMatch,
      zTerms, sampleMean, sampleVar, matchInd]
  · norm_num [erupt_with_std, shapeOk, domainOk, hasImpossible, hasMatch,
      zTerms, sampleMean, sampleVar, matchInd]
  · norm_num [shiftOutcome]
  · norm_num [erupt_with_std, shapeOk, domainOk, hasImpossible, hasMatch,
      zTerms, sampleMean, sampleVar, matchInd]
  · have h14 : ((1/4 : ℚ) : ℝ) = (1/2 : ℝ) ^ 2 := by
      push_cast
      norm_num
    rw [h14, Real.sqrt_sq (by norm_num), Rat.cast_zero, Real.sqrt_zero]
    norm_num

/-- C6 (amended): for every returned result, multiplying every
`actual_outcome[i]` by a constant `c` multiplies the point estimate by `c`
and the standard error by `|c|` (not by `c`: the standard error is
nonnegative), and adding a constant `d` to every `actual_outcome[i]` adds
`d` times the sample mean of the importance weights `w_i = match_i / p_i`
to the point estimate (which is `d` itself only when that mean weight is
`1`); the standard error is in general not invariant under the shift. -/
theorem erupt_scale_shift (inp : EruptInput) (c d e v : ℚ)
    (hok : erupt_with_std inp = .ok (e, v)) :
    (erupt_with_std (scaleOutcome inp c) = .ok (c * e, c ^ 2 * v) ∧
      Real.sqrt ((c ^ 2 * v : ℚ) : ℝ) =
        |(c : ℝ)| * Real.sqrt ((v : ℚ) : ℝ)) ∧
    ∃ v2, erupt_with_std (shiftOutcome inp d) =
      .ok (e + d * sampleMean (wTerms inp.actual_treatment
        inp.hypothetical_policy inp.actual_propensity), v2) := by
  obtain ⟨hs, hd, hi, hm, he, hv⟩ := (erupt_ok_iff inp e v).mp hok
  obtain ⟨ht, hy, hh⟩ := (shapeOk_iff inp).mp hs
  have e1 : (scaleOutcome inp c).actual_treatment =
      inp.actual_treatment := rfl
  have e2 : (scaleOutcome inp c).hypothetical_policy =
      inp.hypothetical_policy := rfl
  have e3 : (scaleOutcome inp c).actual_propensity =
      inp.actual_propensity := rfl
  have e4 : (scaleOutcome inp c).actual_outcome =
      inp.actual_outcome.map (fun x => c * x) := rfl
  have f1 : (shiftOutcome inp d).actual_treatment =
      inp.actual_treatment := rfl
  have f2 : (shiftOutcome inp d).hypothetical_policy =
      inp.hypothetical_policy := rfl
  have f3 : (shiftOutcome inp d).actual_propensity =
      inp.actual_propensity := rfl
  have f4 : (shiftOutcome inp d).actual_outcome =
      inp.actual_outcome.map (fun x => x + d) := rfl
  have hshape2 : shapeOk (scaleOutcome inp c) = true := by
    rw [shapeOk_iff, e1, e2, e3, e4, List.length_map]
    exact ⟨ht, hy, hh⟩
  have hdom2 : domainOk (scaleOutcome inp c) = true := by
    rw [domainOk_iff, e3]
    exact (domainOk_iff inp).mp hd
  have hshape3 : shapeOk (shiftOutcome inp d) = true := by
    rw [shapeOk_iff, f1, f2, f3, f4, List.length_map]
    exact ⟨ht, hy, hh⟩
  have hdom3 : domainOk (shiftOutcome inp d) = true := by
    rw [domainOk_iff, f3]
    exact (domainOk_iff inp).mp hd
  have hzlen : (zTerms inp.actual_treatment inp.hypothetical_policy
      inp.actual_propensity inp.actual_outcome).length =
      inp.actual_propensity.length := zTerms_length _ _ _ _ ht hh hy
  have hwlen : (wTerms inp.actual_treatment inp.hypothetical_policy
      inp.actual_propensity).length = inp.actual_propensity.length :=
    wTerms_length _ _ _ ht hh
  refine ⟨⟨?_, ?_⟩, ?_⟩
  · rw [erupt_ok_iff, e1, e2, e3, e4]
    refine ⟨hshape2, hdom2, hi, hm, ?_, ?_⟩
    · rw [zTerms_map_mul, sampleMean_map_mul, he]
    · rw [zTerms_map_mul, sampleVar_map_mul, List.length_map,
        mul_div_assoc, hv]
  · push_cast
    rw [Real.sqrt_mul (by positivity) ((v : ℚ) : ℝ), Real.sqrt_sq_eq_abs]
  · refine ⟨sampleVar (zTerms inp.actual_treatment inp.hypothetical_policy
      inp.actual_propensity (inp.actual_outcome.map fun x => x + d)) /
      ((zTerms inp.actual_treatment inp.hypothetical_policy
        inp.actual_propensity
        (inp.actual_outcome.map fun x => x + d)).length : ℚ), ?_⟩
    rw [erupt_ok_iff, f1, f2, f3, f4]
    refine ⟨hshape3, hdom3, hi, hm, ?_, rfl⟩
    rw [zTerms_map_add]
    simp only [sampleMean]
    rw [sum_zipWith_add_mul d _ _ (by rw [hzlen, hwlen]),
      List.length_zipWith, hzlen, hwlen, min_self, add_div, mul_div_assoc]
    have he' : (zTerms inp.actual_treatment inp.hypothetical_policy
        inp.actual_propensity inp.actual_outcome).sum /
        ((inp.actual_propensity.length : ℚ)) = e := by
      rw [← he]
      simp only [sampleMean]
      rw [hzlen]
    rw [he']

/-- Witness for the amended C6 at `c = 3`, `d = 5`. -/
theorem erupt_scale_shift_witness :
    erupt_with_std ⟨[1, 1], [0, 0], [0, 2], [0, 0]⟩ = .ok (1, 1) ∧
    ((erupt_with_std (scaleOutcome ⟨[1, 1], [0, 0], [0, 2], [0, 0]⟩ 3) =
        .ok (3 * 1, 3 ^ 2 * 1) ∧
      Real.sqrt ((3 ^ 2 * 1 : ℚ) : ℝ) =
        |((3 : ℚ) : ℝ)| * Real.sqrt ((1 : ℚ) : ℝ)) ∧
    ∃ v2, erupt_with_std (shiftOutcome ⟨[1, 1], [0, 0], [0, 2], [0, 0]⟩ 5) =
      .ok (1 + 5 * sampleMean (wTerms [0, 0] [0, 0] [1, 1]), v2)) :=
  ⟨by norm_num [erupt_with_std, shapeOk, domainOk, hasImpossible, hasMatch,
      zTerms, sampleMean, sampleVar, matchInd],
    erupt_scale_shift ⟨[1, 1], [0, 0], [0, 2], [0, 0]⟩ 3 5 1 1
      (by norm_num [erupt_with_std, shapeOk, domainOk, hasImpossible,
        hasMatch, zTerms, sampleMean, sampleVar, matchInd])⟩
